import Mathlib

/-!
Verification of the fixed-capacity byte-pool allocator of
`src/memory_manager.c` (the variant using `mmap`, `allocation_map`,
`allocation_size_map` and `total_allocated_memory`).

The allocator state is embedded shallowly: the three parallel structures
become total functions from byte offsets, pointers become offsets from the
pool base (`none` models `NULL`), and `size_t` arithmetic is carried out
modulo `2 ^ 64` where the C code can wrap.  Every loop of the C code is
embedded as a structurally recursive function whose fuel argument mirrors
the loop bound, so all definitions evaluate on concrete states by kernel
reduction.
-/

/-- The modulus of `size_t` on the target platform (64-bit Linux). -/
def sizeTMod : Nat := 2 ^ 64

/-- Addition of two `size_t` values (wraps on overflow). -/
def wrapAdd (a b : Nat) : Nat := (a + b) % sizeTMod

/-- Subtraction of two `size_t` values (wraps below zero, as in
`total_allocated_memory -= size`). -/
def wrapSub (a b : Nat) : Nat := (a + (sizeTMod - b % sizeTMod)) % sizeTMod

/-- The page size `sysconf(_SC_PAGESIZE)` is modelled as the common value
4096; no claim depends on the exact value. -/
def pageSize : Nat := 4096

/-- `mem_init` rounds the pool size up to a whole number of pages:
`alloc_size = ((size + page_size - 1) / page_size) * page_size`.  The three
`mmap` regions have room for this many entries. -/
def allocSizeOf (size : Nat) : Nat := ((size + pageSize - 1) / pageSize) * pageSize

/-- The loop `for (j = start; j < start + len; j++) map[j] = v;` used by
`mem_alloc` (marking true), `mem_free` and the shrink branch of
`mem_resize` (marking false). -/
def setRange (v : Bool) : (Nat → Bool) → Nat → Nat → (Nat → Bool)
  | m, _, 0 => m
  | m, start, len + 1 => setRange v (Function.update m start v) (start + 1) len

/-- The loop of the shrink branch of `mem_resize` that zeroes
`allocation_size_map[i]` for `i` in `[start, start + len)`. -/
def zeroRange : (Nat → Nat) → Nat → Nat → (Nat → Nat)
  | m, _, 0 => m
  | m, start, len + 1 => zeroRange (Function.update m start 0) (start + 1) len

/-- The backward scan of `mem_free`:
`while (prev_index > 0 && allocation_size_map[prev_index] == 0) prev_index--;`
started at a given index. -/
def prevScan (sm : Nat → Nat) : Nat → Nat
  | 0 => 0
  | p + 1 => if sm (p + 1) = 0 then prevScan sm p else p + 1

/-- The first-fit scan of `mem_alloc`, lines 98-119 of the C file: `i` runs
from 0 while `i < pool_size`; `remaining = pool_size - i` is the fuel that
makes the recursion structural.  `free` counts the current run of free
bytes and `start` its first index; the moment the run reaches `size` the
run is claimed and `start` returned. -/
def scanLoop (m : Nat → Bool) (size : Nat) : Nat → Nat → Nat → Nat → Option Nat
  | 0, _, _, _ => none
  | remaining + 1, i, free, start =>
    if m i = false then
      if free + 1 = size then some (if free = 0 then i else start)
      else scanLoop m size remaining (i + 1) (free + 1) (if free = 0 then i else start)
    else scanLoop m size remaining (i + 1) 0 start

/-- The in-place expansion check of `mem_resize`, lines 235-239:
`for (i = start+current; i < start+new_size; i++) if (i >= pool_size ||
allocation_map[i]) break;` succeeds iff the loop runs to completion.
`remaining` is the number of iterations left, `i` the loop index. -/
def expandScan (m : Nat → Bool) (cap : Nat) : Nat → Nat → Bool
  | 0, _ => true
  | remaining + 1, i =>
    if cap ≤ i then false
    else if m i then false
    else expandScan m cap remaining (i + 1)

/-- `memcpy(dst, src, len)` on the pool bytes, as used by the relocating
branch of `mem_resize`. -/
def memcpyData (d : Nat → Nat) (dst src len : Nat) : Nat → Nat :=
  fun x => if dst ≤ x ∧ x < dst + len then d (src + (x - dst)) else d x

/-- The allocator's global state: `pool_init` models whether
`memory_pool`, `allocation_map` and `allocation_size_map` are non-null,
`pool_size` the capacity, `map_len` the page-rounded length of the mapped
tables, and `pool_data` the bytes of the pool itself. -/
structure MM where
  pool_init : Bool
  pool_size : Nat
  map_len : Nat
  allocation_map : Nat → Bool
  allocation_size_map : Nat → Nat
  total_allocated_memory : Nat
  pool_data : Nat → Nat

/-- The state before any `mem_init`: all pointers null, all counters zero. -/
def initialMM : MM :=
  { pool_init := false
    pool_size := 0
    map_len := 0
    allocation_map := fun _ => false
    allocation_size_map := fun _ => 0
    total_allocated_memory := 0
    pool_data := fun _ => 0 }

/-- `mem_init(size)`, lines 23-64: maps a zero-filled pool of
`allocSizeOf size` bytes and zero-fills both tables.  A zero `size` or a
failed `mmap` aborts the whole process in C; the model is only applied to
`0 < size`. -/
def mem_init (size : Nat) : MM :=
  { pool_init := true
    pool_size := size
    map_len := allocSizeOf size
    allocation_map := fun _ => false
    allocation_size_map := fun _ => 0
    total_allocated_memory := 0
    pool_data := fun _ => 0 }

/-- `mem_alloc(size)`, lines 74-124.  The returned handle is the offset of
the block from the pool base (`some 0` is `memory_pool` itself); `none` is
`NULL`.  For `size == 0` the C code returns `memory_pool`, which is `NULL`
exactly when the pool is uninitialized. -/
def mem_alloc (st : MM) (size : Nat) : Option Nat × MM :=
  if size = 0 then
    (if st.pool_init = true then some 0 else none, st)
  else if st.pool_init = false then
    (none, st)
  else if st.pool_size < wrapAdd st.total_allocated_memory size then
    (none, st)
  else
    match scanLoop st.allocation_map size st.pool_size 0 0 0 with
    | none => (none, st)
    | some start =>
        (some start,
          { st with
            allocation_map := setRange true st.allocation_map start size
            allocation_size_map := Function.update st.allocation_size_map start size
            total_allocated_memory := wrapAdd st.total_allocated_memory size })

/-- `mem_free(block)`, lines 133-185.  Handles are offsets from the pool
base, so the C range check `block == NULL || block < memory_pool ||
block >= memory_pool + pool_size` becomes `none` or `pool_size ≤ start`
(addresses below the pool base have no offset representation).  After the
early returns the block is cleared, then the backward merge scans left
over zero size-map entries (the C loop checks only the size map, not the
occupancy map) and the forward merge absorbs a free successor entry. -/
def mem_free (st : MM) (block : Option Nat) : MM :=
  match block with
  | none => st
  | some start =>
    if st.pool_size ≤ start then st
    else if st.allocation_map start = false then st
    else
      let size := st.allocation_size_map start
      if size = 0 then st
      else
        let am := setRange false st.allocation_map start size
        let sm := Function.update st.allocation_size_map start 0
        let t := wrapSub st.total_allocated_memory size
        let merged :=
          if 0 < start ∧ am (start - 1) = false then
            let prev := prevScan sm (start - 1)
            if 0 < sm prev then
              (Function.update (Function.update sm prev (wrapAdd (sm prev) size)) start 0,
                wrapSub t size)
            else (sm, t)
          else (sm, t)
        let next := start + size
        let sm3 :=
          if next < st.pool_size ∧ am next = false then
            if 0 < merged.1 next then
              Function.update
                (Function.update merged.1 start (wrapAdd (merged.1 start) (merged.1 next)))
                next 0
            else merged.1
          else merged.1
        { st with
          allocation_map := am
          allocation_size_map := sm3
          total_allocated_memory := merged.2 }

/-- `mem_resize(block, new_size)`, lines 198-263.  The outer `Option` is
the definedness of the call: the C code recovers `start_index` by pointer
subtraction and immediately reads `allocation_size_map[start_index]`
without any range validation, so a handle at or beyond the mapped table
(`map_len ≤ start`) is an out-of-bounds read, modelled as `none`.  A
defined call yields the returned handle and the new state. -/
def mem_resize (st : MM) (block : Option Nat) (new_size : Nat) :
    Option (Option Nat × MM) :=
  match block with
  | none => some (mem_alloc st new_size)
  | some start =>
    if new_size = 0 then some (none, mem_free st (some start))
    else if st.map_len ≤ start then none
    else
      let current := st.allocation_size_map start
      if current = 0 then some (none, st)
      else if new_size ≤ current then
        some (some start,
          { st with
            allocation_map := setRange false st.allocation_map (start + new_size) (current - new_size)
            allocation_size_map :=
              Function.update (zeroRange st.allocation_size_map (start + new_size) (current - new_size))
                start new_size
            total_allocated_memory := wrapSub st.total_allocated_memory (current - new_size) })
      else if expandScan st.allocation_map st.pool_size (new_size - current) (start + current) then
        some (some start,
          { st with
            allocation_map := setRange true st.allocation_map (start + current) (new_size - current)
            allocation_size_map := Function.update st.allocation_size_map start new_size
            total_allocated_memory := wrapAdd st.total_allocated_memory (new_size - current) })
      else
        match mem_alloc st new_size with
        | (none, st1) => some (none, st1)
        | (some nstart, st1) =>
          some (some nstart,
            mem_free { st1 with pool_data := memcpyData st1.pool_data nstart start current }
              (some start))

/-- Sum of the first `n` entries of a size map. -/
def sumEntries (sm : Nat → Nat) : Nat → Nat
  | 0 => 0
  | n + 1 => sumEntries sm n + sm n

/-- Sum of the recorded sizes over the whole pool: since entries are zero
away from recorded allocations, this is the sum over all live
allocations. -/
def sumLive (st : MM) : Nat := sumEntries st.allocation_size_map st.pool_size

/-! ## Concrete traces

A five-operation trace on a three-byte pool that drives the backward
merge of `mem_free` into the size-map entry of a live block: after
`mem_free` of the block at offset 2, the preceding byte 1 is free and the
scan walks left over the zero entries at 1 down to 0, where the live
one-byte block still records size 1; the code then adds the freed size
into that live entry (making it 2) and decrements
`total_allocated_memory` a second time. -/

/-- Pool of capacity 3, freshly initialized. -/
def pool3 : MM := mem_init 3

/-- After allocating three one-byte blocks at offsets 0, 1, 2. -/
def pool3abc : MM := (mem_alloc (mem_alloc (mem_alloc pool3 1).2 1).2 1).2

/-- After freeing the middle block (offset 1). -/
def pool3fb : MM := mem_free pool3abc (some 1)

/-- After also freeing the block at offset 2: the backward merge fires
into the live block at offset 0, leaving `allocation_size_map 0 = 2` with
byte 1 free, and `total_allocated_memory = 0` against a recorded-size sum
of 2. -/
def pool3corrupt : MM := mem_free pool3fb (some 2)

/-- After a further `mem_alloc 1`, which returns offset 1: the new block's
range `[1, 2)` lies inside the corrupted recorded range `[0, 2)` of the
live block at offset 0. -/
def pool3overlap : MM := (mem_alloc pool3corrupt 1).2

/-- After instead freeing the remaining live block at offset 0 of
`pool3corrupt`: its recorded size is the corrupted 2, so
`total_allocated_memory` underflows to `2 ^ 64 - 2` and every later
`mem_alloc` fails its fast-path check although the whole pool is free. -/
def pool3empty : MM := mem_free pool3corrupt (some 0)

/-- Pool of capacity 3 with live one-byte blocks at offsets 0 and 1 (used
as a concrete witness state). -/
def pool3ab : MM := (mem_alloc (mem_alloc (mem_init 3) 1).2 1).2

/-- Pool of capacity 4 whose byte 1 is occupied and bytes 0, 2, 3 are
free: a free run of length 1 at offset 0 precedes a free run of length 2
at offset 2. -/
def pool4w : MM := mem_free (mem_alloc (mem_alloc (mem_init 4) 1).2 1).2 (some 0)

/-! ## Claim-level predicates -/

/-- Pairwise disjointness of the byte ranges recorded in the size map:
claim C1's notion of live allocation is a non-zero size-map entry, its
range running from the entry's offset for the recorded size. -/
def NoOverlap (st : MM) : Prop :=
  ∀ a, a < st.pool_size → ∀ b, b < st.pool_size → a ≠ b →
    0 < st.allocation_size_map a → 0 < st.allocation_size_map b →
    a + st.allocation_size_map a ≤ b ∨ b + st.allocation_size_map b ≤ a

/-- A free run of `size` bytes starting at `s` that the first-fit scan of
`mem_alloc` could claim: it lies inside the pool and every byte is free. -/
abbrev fitsAt (st : MM) (s size : Nat) : Prop :=
  s + size ≤ st.pool_size ∧ ∀ j, j < size → st.allocation_map (s + j) = false

/-- Offset `r` is the first fit for a request of `size` bytes. -/
def firstFitAt (st : MM) (size r : Nat) : Prop :=
  fitsAt st r size ∧ ∀ s, s < r → ¬ fitsAt st s size

/-- A maximal run of free bytes: non-empty, inside the pool, all free,
and bounded on each side by the pool edge or an occupied byte. -/
abbrev isMaxFreeRun (st : MM) (a len : Nat) : Prop :=
  0 < len ∧ a + len ≤ st.pool_size ∧
    (∀ j, j < len → st.allocation_map (a + j) = false) ∧
    (a = 0 ∨ st.allocation_map (a - 1) = true) ∧
    (a + len = st.pool_size ∨ st.allocation_map (a + len) = true)

/-- Claim C3's net effect: every maximal free run is described by a
size-map entry at its leftmost offset recording the run's length. -/
def CoalescedClaim (st : MM) : Prop :=
  ∀ a len, isMaxFreeRun st a len → st.allocation_size_map a = len

/-! ## Claim theorems -/

/-- C1 (code bug): the no-overlap invariant fails on the code.  On the
trace behind `pool3overlap` the backward merge of `mem_free` walked left
from the freed block at offset 2 across the free byte 1 into the live
block at offset 0 (the loop at lines 163-165 checks only for zero
size-map entries, not for occupancy), inflating that live entry to 2; the
subsequent `mem_alloc 1` then returns offset 1, a range inside the
recorded range `[0, 2)` of the live block at offset 0.  The claim's
pairwise-disjointness predicate is false at the moment that handle is
returned. -/
theorem c1_overlap_code_bug :
    (mem_alloc pool3corrupt 1).1 = some 1 ∧ ¬ NoOverlap pool3overlap := by
  constructor
  · decide
  · intro h
    have h1 := h 0 (by decide) 1 (by decide) (by decide) (by decide) (by decide)
    revert h1
    decide

/-- C2 (code bug): the accounting invariant fails on the code.  In
`pool3corrupt` the sum of the recorded sizes over all live allocations is
2 (the corrupted entry of the live block at offset 0), while
`total_allocated_memory` is 0, because the backward merge of `mem_free`
subtracted the freed size a second time (line 169). -/
theorem c2_accounting_code_bug :
    sumLive pool3corrupt = 2 ∧ pool3corrupt.total_allocated_memory = 0 := by
  decide

/-- C3 (counterexample): freeing the single one-byte block of a two-byte
pool leaves the maximal free run `[0, 2)` with a zero size-map entry at
its leftmost offset 0 — `mem_free` zeroes the freed entry (line 157) and
the forward merge finds only a zero entry at offset 1, so no size-map
entry describes the merged free run, contradicting the claim. -/
theorem c3_coalescing_counterexample :
    ¬ CoalescedClaim (mem_free (mem_alloc (mem_init 2) 1).2 (some 0)) := by
  intro h
  exact absurd (h 0 2 (by decide)) (by decide)

/-- C4 (code bug): `mem_free` validates the recovered offset against the
pool range and rejects an out-of-range handle without touching any state,
but `mem_resize` with a non-null handle and a non-zero size performs no
such validation: it reads `allocation_size_map[start_index]` directly
(line 211).  On a pool of capacity 4096 the handle `pool_base + 4096` is
one past the mapped table, so the call is an out-of-bounds read (the
model's `none`) instead of the validated rejection the claim states. -/
theorem c4_resize_unvalidated_code_bug :
    mem_resize (mem_init 4096) (some 4096) 1 = none ∧
      mem_free (mem_init 4096) (some 4096) = mem_init 4096 := by
  exact ⟨rfl, rfl⟩

/-- C6 (counterexample): in the reachable state `pool3corrupt` the sum of
recorded sizes over live allocations is 2, so a request of 2 more bytes
exceeds the capacity 3 by the claim's measure, yet `mem_alloc 2`
succeeds (returning offset 1): the fast-path check compares against the
`total_allocated_memory` counter, which the `mem_free` bug has driven to
0, not against the sum of live sizes. -/
theorem c6_fastpath_counterexample :
    pool3corrupt.pool_size < sumLive pool3corrupt + 2 ∧
      (mem_alloc pool3corrupt 2).1 = some 1 := by
  decide

/-- C7 (counterexample): in the reachable state `pool3empty` the whole
three-byte pool is free, so a one-byte request is satisfiable with first
fit at offset 0; but `total_allocated_memory` underflowed to
`2 ^ 64 - 2` when the corrupted block was freed, so the fast-path check
rejects the request and `mem_alloc` returns null instead of the lowest
fitting offset. -/
theorem c7_firstfit_counterexample :
    pool3empty.pool_init = true ∧ fitsAt pool3empty 0 1 ∧
      (mem_alloc pool3empty 1).1 = none := by
  decide

/-- C8 (confirmed): `mem_free` of a null handle, an out-of-range handle,
a handle whose start byte is already free, or a handle whose start byte
is occupied with a zero recorded size, returns before any mutation: the
resulting state is the argument state, so the occupancy map, the size map
and `total_allocated_memory` are unchanged. -/
theorem c8_free_rejects_noop (st : MM) (h : Option Nat)
    (hbad : h = none ∨ ∃ s, h = some s ∧
      (st.pool_size ≤ s ∨ st.allocation_map s = false ∨
        (st.allocation_map s = true ∧ st.allocation_size_map s = 0))) :
    mem_free st h = st := by
  rcases hbad with rfl | ⟨s, rfl, hs⟩
  · rfl
  · simp only [mem_free]
    rcases hs with hs | hs | ⟨hs1, hs2⟩
    · rw [if_pos hs]
    · by_cases hlt : st.pool_size ≤ s
      · rw [if_pos hlt]
      · rw [if_neg hlt, if_pos hs]
    · by_cases hlt : st.pool_size ≤ s
      · rw [if_pos hlt]
      · rw [if_neg hlt, if_neg (by simp [hs1]), if_pos hs2]

/-- C8 witness: a concrete double free — offset 5 of a fresh eight-byte
pool is free, so `mem_free` leaves the state untouched. -/
theorem c8_free_rejects_noop_witness :
    mem_free (mem_init 8) (some 5) = mem_init 8 :=
  c8_free_rejects_noop (mem_init 8) (some 5) (Or.inr ⟨5, rfl, Or.inr (Or.inl rfl)⟩)

/-- C9 (confirmed): `mem_resize` with a null handle is exactly
`mem_alloc` (same returned handle, same state), and `mem_resize` of any
handle to size 0 is exactly `mem_free` of that handle, returning no valid
handle — both delegations are lines 199-208 of the C file. -/
theorem c9_resize_delegation :
    (∀ st n, mem_resize st none n = some (mem_alloc st n)) ∧
      ∀ st s, mem_resize st (some s) 0 = some (none, mem_free st (some s)) :=
  ⟨fun _ _ => rfl, fun _ _ => rfl⟩

/-- C10 (confirmed): `mem_alloc 0` returns `memory_pool` itself — the
null pointer before initialization, the pool base (offset 0, the same
address as any live allocation starting at offset 0) afterwards — and
leaves the state untouched: no byte is marked occupied, no size recorded,
and the counter is unchanged. -/
theorem c10_alloc_zero :
    ∀ st, mem_alloc st 0 = (if st.pool_init = true then some 0 else none, st) :=
  fun _ => rfl

/-! ## Helper lemmas -/

/-- A failing `mem_alloc` leaves the state unchanged: every path of lines
74-124 that returns `NULL` returns before any mutation. -/
theorem mem_alloc_fail_state (st : MM) (size : Nat)
    (h : (mem_alloc st size).1 = none) : (mem_alloc st size).2 = st := by
  unfold mem_alloc at h ⊢
  by_cases h0 : size = 0
  · rw [if_pos h0]
  · rw [if_neg h0] at h ⊢
    by_cases h1 : st.pool_init = false
    · rw [if_pos h1]
    · rw [if_neg h1] at h ⊢
      by_cases h2 : st.pool_size < wrapAdd st.total_allocated_memory size
      · rw [if_pos h2]
      · rw [if_neg h2] at h ⊢
        rcases hs : scanLoop st.allocation_map size st.pool_size 0 0 0 with _ | r
        · rfl
        · rw [hs] at h
          exact absurd h (by simp)

/-- Pointwise value of the marking loop: bytes in `[start, start + len)`
get `v`, all others keep their old value. -/
theorem setRange_eq (v : Bool) :
    ∀ (len : Nat) (m : Nat → Bool) (start i : Nat),
      setRange v m start len i = if start ≤ i ∧ i < start + len then v else m i := by
  intro len
  induction len with
  | zero =>
      intro m start i
      simp only [setRange]
      rw [if_neg (by omega)]
  | succ n ih =>
      intro m start i
      simp only [setRange]
      rw [ih]
      by_cases h1 : start ≤ i ∧ i < start + (n + 1)
      · rw [if_pos h1]
        by_cases h2 : start + 1 ≤ i ∧ i < start + 1 + n
        · rw [if_pos h2]
        · rw [if_neg h2]
          have hi : i = start := by omega
          subst hi
          rw [Function.update_same]
      · rw [if_neg h1]
        rw [if_neg (by omega)]
        rw [Function.update_noteq (by omega)]


/-- C3 (amended): `mem_free` of a valid live block marks its bytes free
and zeroes its size-map entry, and when the freed block's immediate
neighbours give the merge steps nothing to absorb — the preceding byte is
occupied or absent, and the following byte is occupied, absent, or
carries a zero size-map entry — no other entry and no further counter
update happens.  Free runs are tracked only implicitly by the occupancy
map; they are not summarised by a size-map entry at their leftmost
offset (see the counterexample). -/
theorem c3_free_no_merge (st : MM) (start size : Nat)
    (hlt : start < st.pool_size)
    (hocc : st.allocation_map start = true)
    (hsz : st.allocation_size_map start = size)
    (hpos : 0 < size)
    (hleft : start = 0 ∨ st.allocation_map (start - 1) = true)
    (hright : st.pool_size ≤ start + size ∨ st.allocation_map (start + size) = true ∨
      st.allocation_size_map (start + size) = 0) :
    mem_free st (some start) =
      { st with
        allocation_map := setRange false st.allocation_map start size
        allocation_size_map := Function.update st.allocation_size_map start 0
        total_allocated_memory := wrapSub st.total_allocated_memory size } := by
  simp only [mem_free]
  rw [if_neg (by omega), if_neg (by simp [hocc]), hsz, if_neg (by omega)]
  have hb : ¬(0 < start ∧ setRange false st.allocation_map start size (start - 1) = false) := by
    rintro ⟨hb1, hb2⟩
    rw [setRange_eq, if_neg (by omega)] at hb2
    rcases hleft with h3 | h3
    · omega
    · rw [h3] at hb2
      exact absurd hb2 (by simp)
  rw [if_neg hb]
  have hnext : Function.update st.allocation_size_map start 0 (start + size) =
      st.allocation_size_map (start + size) :=
    Function.update_noteq (by omega) 0 st.allocation_size_map
  rcases hright with h | h | h
  · rw [if_neg (by rintro ⟨h1, _⟩; omega)]
  · rw [if_neg (by
      rintro ⟨_, h2⟩
      rw [setRange_eq, if_neg (by omega), h] at h2
      exact absurd h2 (by simp))]
  · by_cases hc : start + size < st.pool_size ∧
        setRange false st.allocation_map start size (start + size) = false
    · rw [if_pos hc, if_neg (by
        show ¬0 < Function.update st.allocation_size_map start 0 (start + size)
        rw [hnext, h]
        omega)]
    · rw [if_neg hc]

/-- C3 amended witness: freeing the middle block of three adjacent live
one-byte blocks touches only that block's bytes, entry and counter. -/
theorem c3_free_no_merge_witness :
    mem_free pool3abc (some 1) =
      { pool3abc with
        allocation_map := setRange false pool3abc.allocation_map 1 1
        allocation_size_map := Function.update pool3abc.allocation_size_map 1 0
        total_allocated_memory := wrapSub pool3abc.total_allocated_memory 1 } :=
  c3_free_no_merge pool3abc 1 1 (by decide) (by decide) (by decide) (by decide)
    (Or.inr (by decide)) (Or.inr (Or.inl (by decide)))

/-- C5 (confirmed): if a live block cannot grow in place (the expansion
scan stopped early) and the fresh allocation of `new_size` bytes fails,
`mem_resize` returns null and the state — the block's occupancy range,
its size-map entry, the pool bytes, everything — is exactly the state
before the call. -/
theorem c5_resize_relocate_failure (st : MM) (start new_size current : Nat)
    (hns : new_size ≠ 0)
    (hlen : start < st.map_len)
    (hcur : st.allocation_size_map start = current)
    (hpos : 0 < current)
    (hgrow : current < new_size)
    (hblocked : expandScan st.allocation_map st.pool_size (new_size - current) (start + current) = false)
    (hfail : (mem_alloc st new_size).1 = none) :
    mem_resize st (some start) new_size = some (none, st) := by
  have hall : mem_alloc st new_size = (none, st) := by
    have h2 := mem_alloc_fail_state st new_size hfail
    rcases hm : mem_alloc st new_size with ⟨nb, st1⟩
    rw [hm] at hfail h2
    simp only at hfail h2
    rw [hfail, h2]
  simp only [mem_resize]
  rw [if_neg hns, if_neg (by omega), hcur, if_neg (by omega), if_neg (by omega), hblocked]
  rw [if_neg (by simp), hall]

/-- C5 witness: on a three-byte pool with one-byte blocks at offsets 0
and 1, growing block 0 to two bytes is blocked by block 1, and the
fallback `mem_alloc 2` fails the fast-path check, so the resize returns
null with the state untouched. -/
theorem c5_resize_relocate_failure_witness :
    mem_resize pool3ab (some 0) 2 = some (none, pool3ab) :=
  c5_resize_relocate_failure pool3ab 0 2 1 (by decide) (by decide) (by decide) (by decide)
    (by decide) (by decide) (by decide)

/-- Invariant-based specification of the first-fit scan.  At a general
loop state (`remaining` iterations left, index `i`, current free run of
length `free` starting at `start`) with the loop invariants — `free` is
still short of `size`, the current run is real, and every fitting run
starts at or after the current run — the scan returns some `r` exactly
when `r` is a fitting offset that is least among all fitting offsets, and
returns none exactly when no offset fits. -/
theorem scanLoop_spec (m : Nat → Bool) (cap size : Nat) (hsz : 0 < size) :
    ∀ remaining i free start, i + remaining = cap → free < size →
      (0 < free → start + free = i) →
      (∀ j, j < free → m (start + j) = false) →
      (∀ s, s + size ≤ cap → (∀ j, j < size → m (s + j) = false) → i ≤ s + free) →
      (∀ r, scanLoop m size remaining i free start = some r →
          r + size ≤ cap ∧ (∀ j, j < size → m (r + j) = false) ∧
            ∀ s, s + size ≤ cap → (∀ j, j < size → m (s + j) = false) → r ≤ s) ∧
        (scanLoop m size remaining i free start = none →
          ∀ s, s + size ≤ cap → ¬ ∀ j, j < size → m (s + j) = false) := by
  intro remaining
  induction remaining with
  | zero =>
      intro i free start hcap hfree hstart hrun hmin
      constructor
      · intro r hr
        exact absurd hr (by simp [scanLoop])
      · intro _ s hs hrunS
        have := hmin s hs hrunS
        omega
  | succ n ih =>
      intro i free start hcap hfree hstart hrun hmin
      simp only [scanLoop]
      by_cases hmi : m i = false
      · rw [if_pos hmi]
        by_cases hdone : free + 1 = size
        · rw [if_pos hdone]
          constructor
          · intro r hr
            have hr2 : (if free = 0 then i else start) = r := Option.some.inj hr
            subst hr2
            by_cases hfz : free = 0
            · rw [if_pos hfz]
              refine ⟨by omega, ?_, ?_⟩
              · intro j hj
                have hj0 : j = 0 := by omega
                subst hj0
                simpa using hmi
              · intro s hs hrunS
                have := hmin s hs hrunS
                omega
            · rw [if_neg hfz]
              have hst := hstart (by omega)
              refine ⟨by omega, ?_, ?_⟩
              · intro j hj
                by_cases hjf : j < free
                · exact hrun j hjf
                · have hje : j = free := by omega
                  subst hje
                  rw [hst]
                  exact hmi
              · intro s hs hrunS
                have := hmin s hs hrunS
                omega
          · intro hnone
            exact absurd hnone (by simp)
        · rw [if_neg hdone]
          refine ih (i + 1) (free + 1) (if free = 0 then i else start) (by omega) (by omega)
            ?_ ?_ ?_
          · intro _
            by_cases hfz : free = 0
            · rw [if_pos hfz]
              omega
            · rw [if_neg hfz]
              have := hstart (by omega)
              omega
          · intro j hj
            by_cases hfz : free = 0
            · rw [if_pos hfz]
              have hj0 : j = 0 := by omega
              subst hj0
              simpa using hmi
            · rw [if_neg hfz]
              by_cases hjf : j < free
              · exact hrun j hjf
              · have hje : j = free := by omega
                subst hje
                rw [hstart (by omega)]
                exact hmi
          · intro s hs hrunS
            have := hmin s hs hrunS
            omega
      · rw [if_neg hmi]
        refine ih (i + 1) 0 start (by omega) hsz (fun h => absurd h (by omega))
          (fun j hj => absurd hj (by omega)) ?_
        intro s hs hrunS
        have h1 := hmin s hs hrunS
        by_contra hcon
        push_neg at hcon
        have hin : i - s < size := by omega
        have h2 := hrunS (i - s) hin
        rw [Nat.add_sub_cancel' (by omega : s ≤ i)] at h2
        exact hmi h2

/-- Soundness of `mem_alloc` with respect to first fit: a returned handle
is a fitting offset below which no offset fits. -/
theorem mem_alloc_first_fit_sound (st : MM) (size r : Nat) (hsz : 0 < size)
    (h : (mem_alloc st size).1 = some r) : firstFitAt st size r := by
  unfold mem_alloc at h
  rw [if_neg (by omega)] at h
  by_cases h1 : st.pool_init = false
  · rw [if_pos h1] at h
    exact absurd h (by simp)
  · rw [if_neg h1] at h
    by_cases h2 : st.pool_size < wrapAdd st.total_allocated_memory size
    · rw [if_pos h2] at h
      exact absurd h (by simp)
    · rw [if_neg h2] at h
      rcases hs : scanLoop st.allocation_map size st.pool_size 0 0 0 with _ | r2
      · rw [hs] at h
        exact absurd h (by simp)
      · rw [hs] at h
        simp only [Option.some.injEq] at h
        subst h
        have hspec := (scanLoop_spec st.allocation_map st.pool_size size hsz st.pool_size 0 0 0
          (by omega) hsz (fun hc => absurd hc (by omega)) (fun j hj => absurd hj (by omega))
          (fun s _ _ => by omega)).1 r2 hs
        exact ⟨⟨hspec.1, hspec.2.1⟩, fun s hlt hfits => by
          have := hspec.2.2 s hfits.1 hfits.2
          omega⟩

/-- Completeness of `mem_alloc` with respect to first fit: once the
fast-path check passes, a fitting run guarantees a handle. -/
theorem mem_alloc_first_fit_complete (st : MM) (size : Nat) (hsz : 0 < size)
    (hinit : st.pool_init = true)
    (hfast : wrapAdd st.total_allocated_memory size ≤ st.pool_size)
    (hsat : ∃ s, fitsAt st s size) :
    ∃ r, (mem_alloc st size).1 = some r := by
  unfold mem_alloc
  rw [if_neg (by omega), if_neg (by simp [hinit]), if_neg (by omega)]
  rcases hs : scanLoop st.allocation_map size st.pool_size 0 0 0 with _ | r
  · exfalso
    obtain ⟨s, hs1, hs2⟩ := hsat
    exact (scanLoop_spec st.allocation_map st.pool_size size hsz st.pool_size 0 0 0
      (by omega) hsz (fun hc => absurd hc (by omega)) (fun j hj => absurd hj (by omega))
      (fun s _ _ => by omega)).2 hs s hs1 hs2
  · exact ⟨r, rfl⟩

/-- C7 (amended): whenever `mem_alloc` returns a handle, that handle is
the lowest offset whose run of consecutive free bytes has length at least
the requested size (first fit); and whenever the running
`total_allocated_memory` counter passes the fast-path check and some run
fits, a handle is returned.  The success half must be conditioned on the
counter rather than on satisfiability alone, since the counter can be
corrupted by the `mem_free` merge bug (see the counterexample). -/
theorem c7_firstfit_amended :
    (∀ st size r, 0 < size → (mem_alloc st size).1 = some r → firstFitAt st size r) ∧
      ∀ st size, 0 < size → st.pool_init = true →
        wrapAdd st.total_allocated_memory size ≤ st.pool_size →
        (∃ s, fitsAt st s size) →
        ∃ r, (mem_alloc st size).1 = some r ∧ firstFitAt st size r := by
  refine ⟨fun st size r hsz h => mem_alloc_first_fit_sound st size r hsz h, ?_⟩
  intro st size hsz hinit hfast hsat
  obtain ⟨r, hr⟩ := mem_alloc_first_fit_complete st size hsz hinit hfast hsat
  exact ⟨r, hr, mem_alloc_first_fit_sound st size r hsz hr⟩


/-- C7 witness: on `pool4w` a two-byte request skips the too-short run at
offset 0 and returns the lower-offset fitting run at offset 2. -/
theorem c7_firstfit_amended_witness :
    ∃ r, (mem_alloc pool4w 2).1 = some r ∧ firstFitAt pool4w 2 r :=
  c7_firstfit_amended.2 pool4w 2 (by decide) (by decide) (by decide) ⟨2, by decide⟩

/-- C6 (amended): the fast-path rejection compares the request against
the running `total_allocated_memory` counter (not against the sum of
live recorded sizes, from which the counter can diverge, see the
counterexample): if `total_allocated_memory + size` exceeds the capacity
in `size_t` arithmetic, `mem_alloc` fails with the state unchanged,
before the occupancy map is scanned; and on an initialized pool
`mem_alloc (capacity + 1)` always fails — by the fast path or, should
the counter have wrapped, because no run of `capacity + 1` free bytes
exists inside the pool. -/
theorem c6_fastpath_amended :
    (∀ st size, size ≠ 0 → st.pool_size < wrapAdd st.total_allocated_memory size →
        mem_alloc st size = (none, st)) ∧
      ∀ st, st.pool_init = true → (mem_alloc st (st.pool_size + 1)).1 = none := by
  constructor
  · intro st size h0 hlt
    unfold mem_alloc
    rw [if_neg h0]
    by_cases h1 : st.pool_init = false
    · rw [if_pos h1]
    · rw [if_neg h1, if_pos hlt]
  · intro st hinit
    unfold mem_alloc
    rw [if_neg (by omega), if_neg (by simp [hinit])]
    by_cases hlt : st.pool_size < wrapAdd st.total_allocated_memory (st.pool_size + 1)
    · rw [if_pos hlt]
    · rw [if_neg hlt]
      rcases hs : scanLoop st.allocation_map (st.pool_size + 1) st.pool_size 0 0 0 with _ | r
      · rfl
      · exfalso
        have hspec := (scanLoop_spec st.allocation_map st.pool_size (st.pool_size + 1)
          (by omega) st.pool_size 0 0 0 (by omega) (by omega)
          (fun hc => absurd hc (by omega)) (fun j hj => absurd hj (by omega))
          (fun s _ _ => by omega)).1 r hs
        omega

/-- C6 witness: a three-byte request on a fresh two-byte pool trips the
fast-path check and leaves the state untouched. -/
theorem c6_fastpath_amended_witness :
    mem_alloc (mem_init 2) 3 = (none, mem_init 2) :=
  c6_fastpath_amended.1 (mem_init 2) 3 (by decide) (by decide)
